import Mathlib

/-!
# Verification of the theme-driven subtitle document renderer

A shallow embedding of the subtitle markup generator
(`auto_subtitle/effects.py`, `auto_subtitle/subtitle_renderer.py`,
`auto_subtitle/theme_config.py`), together with theorems settling the
frozen claims about it.

Modelling conventions:
* Python floats (segment times, opacity, …) are modelled as exact
  rationals `ℚ`; Python ints as `Int` (with `Nat` where the source value
  is a count).
* `int(x)` (truncation toward zero) is `pyInt`; float `x % y` is
  `pyFmod`; float `x // y` is `⌊x / y⌋`.
* Code that can raise `ValueError` is modelled in `Except HexColorError`.
* Literal `{`/`}` characters of the ASS override-tag syntax are written
  with the escapes `\x7b`/`\x7d` inside string literals.
-/

/-- Truncation toward zero, the semantics of Python `int(x)` on a float. -/
def pyInt (q : ℚ) : Int :=
  if 0 ≤ q then ⌊q⌋ else ⌈q⌉

/-- Python float `a % b` (result has the sign of `b`; for `b > 0` this is
`a - b * ⌊a / b⌋`). -/
def pyFmod (a b : ℚ) : ℚ :=
  a - b * ⌊a / b⌋

/-! ## Color codec — `effects.hex_to_ass_color` -/

/-- Errors raised by `hex_to_ass_color` (Python: `ValueError`).
`invalidColorFormat` is the explicit `raise ValueError(f"Invalid hex
color: …")` for a wrong length; `invalidHexDigit` is the `ValueError`
raised by `int(…, 16)` on a non-hex character. -/
inductive HexColorError where
  | invalidColorFormat
  | invalidHexDigit
  deriving DecidableEq, Repr

/-- Value of one hex digit, as accepted by Python `int(…, 16)` for the
single-character case (sign/whitespace leniency of `int` is not modelled;
no claim depends on it). -/
def hexDigitVal (c : Char) : Option Nat :=
  if '0'.toNat ≤ c.toNat ∧ c.toNat ≤ '9'.toNat then some (c.toNat - '0'.toNat)
  else if 'a'.toNat ≤ c.toNat ∧ c.toNat ≤ 'f'.toNat then
    some (c.toNat - 'a'.toNat + 10)
  else if 'A'.toNat ≤ c.toNat ∧ c.toNat ≤ 'F'.toNat then
    some (c.toNat - 'A'.toNat + 10)
  else none

/-- Python `int(f"{c1}{c2}", 16)`. -/
def parseHexByte (c1 c2 : Char) : Option Nat :=
  match hexDigitVal c1, hexDigitVal c2 with
  | some h, some l => some (16 * h + l)
  | _, _ => none

/-- Uppercase hex digit character, as produced by Python `"%X"`. -/
def hexUpperDigit (d : Nat) : Char :=
  if d < 10 then Char.ofNat ('0'.toNat + d)
  else Char.ofNat ('A'.toNat + (d - 10))

/-- Python `f"{n:02X}"` for `n < 256`: exactly two uppercase hex digits. -/
def toHex2 (n : Nat) : String :=
  ⟨[hexUpperDigit (n / 16), hexUpperDigit (n % 16)]⟩

/-- The `&HAABBGGRR` token built at `effects.py:29`. -/
def assColorToken (a b g r : Nat) : String :=
  "&H" ++ toHex2 a ++ toHex2 b ++ toHex2 g ++ toHex2 r

/-- Core of `hex_to_ass_color` after `lstrip('#')`: dispatch on the
length of the remaining character list (`effects.py:20-27`). -/
def hexColorCore (l : List Char) : Except HexColorError String :=
  match l with
  | [c1, c2, c3, c4, c5, c6] =>
    match parseHexByte c1 c2, parseHexByte c3 c4, parseHexByte c5 c6 with
    | some r, some g, some b => .ok (assColorToken 0 b g r)
    | _, _, _ => .error .invalidHexDigit
  | [c1, c2, c3, c4, c5, c6, c7, c8] =>
    match parseHexByte c1 c2, parseHexByte c3 c4, parseHexByte c5 c6,
        parseHexByte c7 c8 with
    | some r, some g, some b, some a0 => .ok (assColorToken (255 - a0) b g r)
    | _, _, _, _ => .error .invalidHexDigit
  | _ => .error .invalidColorFormat

/-- `effects.hex_to_ass_color`.  Python `str.lstrip('#')` removes every
leading `'#'`, hence `dropWhile`. -/
def hex_to_ass_color (s : String) : Except HexColorError String :=
  hexColorCore (s.data.dropWhile (· = '#'))

/-- The character set of valid hex digits, as a decidable predicate. -/
def isHexDigitChar (c : Char) : Bool :=
  (hexDigitVal c).isSome

/-- A valid color input in the sense of the spec: after stripping leading
`'#'`, exactly 6 or 8 hex digits. -/
def IsValidHexColor (s : String) : Prop :=
  ((s.data.dropWhile (· = '#')).length = 6 ∨
    (s.data.dropWhile (· = '#')).length = 8) ∧
  ∀ c ∈ s.data.dropWhile (· = '#'), isHexDigitChar c = true

instance (s : String) : Decidable (IsValidHexColor s) := by
  unfold IsValidHexColor; infer_instance

/-! ## Alignment — `effects.get_alignment_code` -/

/-- The `align_map.get(align, 1)` lookup (`effects.py:56-60`). -/
def alignMapGet (align : String) : Nat :=
  if align = "left" then 0
  else if align = "center" then 1
  else if align = "right" then 2
  else 1

/-- The `pos_base.get(position, 1)` lookup (`effects.py:62-67`). -/
def posBaseGet (position : String) : Nat :=
  if position = "bottom" then 1
  else if position = "center" then 4
  else if position = "top" then 7
  else if position = "custom" then 1
  else 1

/-- `effects.get_alignment_code`. -/
def get_alignment_code (position align : String) : Nat :=
  posBaseGet position + alignMapGet align

/-- Base table as the claim words it: bottom=1, center=4, top=7,
custom=1.  (Comparison definition following the spec's wording; values
outside the enumerated set are irrelevant to the claim.) -/
def specPosBase (position : String) : Nat :=
  if position = "bottom" then 1
  else if position = "center" then 4
  else if position = "top" then 7
  else if position = "custom" then 1
  else 0

/-- Offset table as the claim words it: left=0, center=1, right=2. -/
def specAlignOffset (align : String) : Nat :=
  if align = "left" then 0
  else if align = "center" then 1
  else if align = "right" then 2
  else 0

/-! ## Animation effect catalog — `effects.py:72-145`

Only the builders reachable from `get_entry_effect` / `get_exit_effect`
and the renderer are modelled; the unused `slide`/`move`/`scale`/karaoke
tag builders are omitted. -/

/-- `effects.get_fade_effect`. -/
def get_fade_effect (entryMs exitMs : Int) : String :=
  "\\fad(" ++ toString entryMs ++ "," ++ toString exitMs ++ ")"

/-- `effects.get_pop_in_effect`. -/
def get_pop_in_effect (duration : Int) : String :=
  "\\fscx50\\fscy50\\t(0," ++ toString duration ++ ",\\fscx100\\fscy100)"

/-- `effects.get_pop_out_effect`. -/
def get_pop_out_effect (startTime duration : Int) : String :=
  "\\t(" ++ toString startTime ++ "," ++ toString (startTime + duration) ++
    ",\\fscx50\\fscy50\\alpha&HFF&)"

/-- `effects.get_bounce_effect`; `//` is Python floor division, `Int.fdiv`. -/
def get_bounce_effect (duration : Int) : String :=
  let t1 := duration.fdiv 3
  let t2 := (duration * 2).fdiv 3
  "\\fscx80\\fscy80" ++
    "\\t(0," ++ toString t1 ++ ",\\fscx110\\fscy110)" ++
    "\\t(" ++ toString t1 ++ "," ++ toString t2 ++ ",\\fscx95\\fscy95)" ++
    "\\t(" ++ toString t2 ++ "," ++ toString duration ++ ",\\fscx100\\fscy100)"

/-- `effects.get_entry_effect`: dict lookup with `""` as the silent
default for unrecognized names. -/
def get_entry_effect (effectName : String) (duration : Int) : String :=
  if effectName = "none" then ""
  else if effectName = "fade" then get_fade_effect duration 0
  else if effectName = "pop" then get_pop_in_effect duration
  else if effectName = "slide_up" then "\\fad(" ++ toString duration ++ ",0)"
  else if effectName = "slide_down" then "\\fad(" ++ toString duration ++ ",0)"
  else if effectName = "bounce" then get_bounce_effect duration
  else ""

/-- `effects.get_exit_effect`. -/
def get_exit_effect (effectName : String) (duration totalDuration : Int) : String :=
  let start := totalDuration - duration
  if effectName = "none" then ""
  else if effectName = "fade" then get_fade_effect 0 duration
  else if effectName = "pop" then get_pop_out_effect start duration
  else if effectName = "slide_up" then "\\fad(0," ++ toString duration ++ ")"
  else if effectName = "slide_down" then "\\fad(0," ++ toString duration ++ ")"
  else if effectName = "bounce" then "\\fad(0," ++ toString duration ++ ")"
  else ""

/-- The recognized entry/exit effect names. -/
def recognizedEffects : List String :=
  ["none", "fade", "pop", "slide_up", "slide_down", "bounce"]

/-! ## Time formatting — `effects.format_time_ass` -/

/-- Python `f"{n:02d}"` for the values used here (non-negative, `< 100`):
pad with one `'0'` when the decimal form is a single character. -/
def pad2 (n : Int) : String :=
  let s := toString n
  if s.length ≥ 2 then s else "0" ++ s

/-- `effects.format_time_ass`.  `int(seconds // 3600)` is `⌊t/3600⌋`
(already integral, truncation is the identity); `seconds % 3600` is
`pyFmod`; the final `int(…)` calls are `pyInt`. -/
def format_time_ass (seconds : ℚ) : String :=
  let hours : Int := ⌊seconds / 3600⌋
  let minutes : Int := ⌊pyFmod seconds 3600 / 60⌋
  let secs : Int := pyInt (pyFmod seconds 60)
  let centiseconds : Int := pyInt (pyFmod seconds 1 * 100)
  toString hours ++ ":" ++ pad2 minutes ++ ":" ++ pad2 secs ++ "." ++
    pad2 centiseconds

/-! ## Word timings — `effects.calculate_word_timings` -/

/-- One entry of a segment's `words` list, a Python dict accessed with
`.get` and defaults; absent keys are `none`. `stop?` models the source
key `"end"`. -/
structure RawWord where
  word? : Option String
  start? : Option ℚ
  stop? : Option ℚ
  deriving DecidableEq, Repr

/-- A Whisper transcript segment (dict with optional keys).  `stop?`
models the source key `"end"`. -/
structure Segment where
  start? : Option ℚ
  stop? : Option ℚ
  text? : Option String
  words? : Option (List RawWord)
  deriving DecidableEq, Repr

/-- The result triples of `calculate_word_timings`. `stop` models the
output key `"end"`. -/
structure WordTiming where
  word : String
  start : ℚ
  stop : ℚ
  deriving DecidableEq, Repr

/-- Python `str.strip()` (no argument): drop leading and trailing
whitespace.  (`Char.isWhitespace` approximates Python's whitespace set;
no claim distinguishes the exotic members.) -/
def pyStrip (s : String) : String :=
  ⟨((s.data.dropWhile Char.isWhitespace).reverse.dropWhile
    Char.isWhitespace).reverse⟩

/-- Splitting loop for Python `str.split()`: `cur` is the current token,
reversed; tokens are emitted only when non-empty. -/
def pySplitChars : List Char → List Char → List String
  | [], cur => if cur.isEmpty then [] else [⟨cur.reverse⟩]
  | c :: cs, cur =>
    if c.isWhitespace then
      if cur.isEmpty then pySplitChars cs []
      else ⟨cur.reverse⟩ :: pySplitChars cs []
    else pySplitChars cs (c :: cur)

/-- Python `str.split()` (no argument): split on whitespace runs,
discarding empty pieces. -/
def pySplit (s : String) : List String :=
  pySplitChars s.data []

/-- The per-word estimated duration of the character-count loop
(`effects.py:246`): `(len(word)/total_chars) * segment_duration` when
`total_chars > 0`, else `segment_duration / len(words)` (with `n` the
full word count). -/
def wordDur (dur : ℚ) (total n : Nat) (w : String) : ℚ :=
  if 0 < total then ((w.length : ℚ) / (total : ℚ)) * dur
  else dur / (n : ℚ)

/-- The accumulator loop of `calculate_word_timings`
(`effects.py:241-254`). -/
def wtLoop (dur : ℚ) (total n : Nat) : List String → ℚ → List WordTiming
  | [], _ => []
  | w :: rest, t =>
    let d := wordDur dur total n w
    ⟨w, t, t + d⟩ :: wtLoop dur total n rest (t + d)

/-- `effects.calculate_word_timings`. -/
def calculate_word_timings (segment : Segment) : List WordTiming :=
  match segment.words? with
  | some ws =>
    ws.filterMap fun w =>
      let t := pyStrip (w.word?.getD "")
      if t = "" then none
      else some ⟨t, w.start?.getD 0, w.stop?.getD 0⟩
  | none =>
    let text := pyStrip (segment.text?.getD "")
    let words := pySplit text
    match words with
    | [] => []
    | _ =>
      let segmentStart := segment.start?.getD 0
      let segmentEnd := segment.stop?.getD 0
      let segmentDuration := segmentEnd - segmentStart
      let totalChars := (words.map String.length).sum
      wtLoop segmentDuration totalChars words.length words segmentStart

/-- The word-timing estimator as the claim words it: the direct-map
branch (the code's own entry mapping) is used only when the `words`
field is present **and non-empty after trimming whitespace**; otherwise
the text is split.  (Comparison definition following the claim's
wording, to be measured against `calculate_word_timings`.) -/
def claimWordTimings (segment : Segment) : List WordTiming :=
  match segment.words? with
  | some _ =>
    let direct := calculate_word_timings segment
    if direct = [] then calculate_word_timings { segment with words? := none }
    else direct
  | none => calculate_word_timings { segment with words? := none }

/-! ## Chunking — `effects.chunk_words` -/

/-- The loop of `chunk_words`: append the word to the current chunk, and
flush when `len(current_chunk) >= max_words` (`effects.py:268-276`). -/
def chunkLoop (maxWords : Int) : List α → List α → List (List α)
  | [], [] => []
  | [], cur => [cur]
  | w :: rest, cur =>
    let cur2 := cur ++ [w]
    if (cur2.length : Int) ≥ maxWords then cur2 :: chunkLoop maxWords rest []
    else chunkLoop maxWords rest cur2

/-- `effects.chunk_words` (the source default for `max_words` is 5; the
renderer always passes `theme.layout.max_words_per_line`). -/
def chunk_words (words : List α) (maxWords : Int) : List (List α) :=
  chunkLoop maxWords words []

/-! ## Theme model — `theme_config.py`

The Python `Literal` annotations are not enforced at runtime, so the
enumerated fields are plain strings here as well. -/

/-- `theme_config.FontConfig`. -/
structure FontConfig where
  family : String
  size : Int
  weight : String
  style : String
  deriving DecidableEq, Repr

/-- `theme_config.ColorConfig`. -/
structure ColorConfig where
  primary : String
  highlight : String
  background : String
  outline : String
  shadow : String
  deriving DecidableEq, Repr

/-- `theme_config.HighlightConfig`. -/
structure HighlightConfig where
  enabled : Bool
  mode : String
  style : String
  transition : String
  deriving DecidableEq, Repr

/-- `theme_config.LayoutConfig`. -/
structure LayoutConfig where
  position : String
  customY : Option ℚ
  maxWordsPerLine : Int
  alignment : String
  marginX : Int
  marginY : Int
  deriving DecidableEq, Repr

/-- `theme_config.BackgroundConfig`. -/
structure BackgroundConfig where
  enabled : Bool
  style : String
  padding : Int
  borderRadius : Int
  opacity : ℚ
  deriving DecidableEq, Repr

/-- `theme_config.OutlineEffect`. -/
structure OutlineEffect where
  enabled : Bool
  width : Int
  deriving DecidableEq, Repr

/-- `theme_config.ShadowEffect`. -/
structure ShadowEffect where
  enabled : Bool
  offsetX : Int
  offsetY : Int
  blur : Int
  deriving DecidableEq, Repr

/-- `theme_config.EffectsConfig`. -/
structure EffectsConfig where
  outline : OutlineEffect
  shadow : ShadowEffect
  deriving DecidableEq, Repr

/-- `theme_config.AnimationConfig`. -/
structure AnimationConfig where
  entry : String
  exit : String
  duration : Int
  wordStagger : Int
  deriving DecidableEq, Repr

/-- `theme_config.SubtitleThemeConfig`. -/
structure SubtitleThemeConfig where
  name : String
  version : String
  font : FontConfig
  colors : ColorConfig
  highlight : HighlightConfig
  layout : LayoutConfig
  background : BackgroundConfig
  effects : EffectsConfig
  animation : AnimationConfig
  deriving DecidableEq, Repr

/-- The dataclass defaults (`theme_config.py:13-105`):
`SubtitleThemeConfig()`. -/
def defaultTheme : SubtitleThemeConfig where
  name := "default"
  version := "1.0"
  font := { family := "Arial", size := 72, weight := "bold", style := "normal" }
  colors :=
    { primary := "#FFFFFF", highlight := "#00FF88", background := "#000000CC"
      outline := "#000000", shadow := "#00000080" }
  highlight :=
    { enabled := true, mode := "word", style := "color", transition := "instant" }
  layout :=
    { position := "bottom", customY := none, maxWordsPerLine := 5
      alignment := "center", marginX := 50, marginY := 100 }
  background :=
    { enabled := true, style := "single", padding := 20, borderRadius := 15
      opacity := 8/10 }
  effects :=
    { outline := { enabled := true, width := 3 }
      shadow := { enabled := false, offsetX := 4, offsetY := 4, blur := 2 } }
  animation :=
    { entry := "pop", exit := "fade", duration := 200, wordStagger := 50 }

/-! ### Structured documents (dicts) for `from_dict` / `to_dict`

A Python dict with optional string keys is modelled as a record of
`Option` fields; a key observed by `dict.get(k, default)` that is absent
is `none`. -/

/-- The `"font"` sub-document. -/
structure FontDoc where
  family? : Option String
  size? : Option Int
  weight? : Option String
  style? : Option String
  deriving DecidableEq, Repr

/-- The `"colors"` sub-document. -/
structure ColorDoc where
  primary? : Option String
  highlight? : Option String
  background? : Option String
  outline? : Option String
  shadow? : Option String
  deriving DecidableEq, Repr

/-- The `"highlight"` sub-document. -/
structure HighlightDoc where
  enabled? : Option Bool
  mode? : Option String
  style? : Option String
  transition? : Option String
  deriving DecidableEq, Repr

/-- The `"layout"` sub-document.  `custom_y` defaults to the current
config value via `.get("custom_y", config.layout.custom_y)`, so its
absence and an explicit `null` coincide (both `none`). -/
structure LayoutDoc where
  position? : Option String
  customY? : Option (Option ℚ)
  maxWordsPerLine? : Option Int
  alignment? : Option String
  marginX? : Option Int
  marginY? : Option Int
  deriving DecidableEq, Repr

/-- The `"background"` sub-document. -/
structure BackgroundDoc where
  enabled? : Option Bool
  style? : Option String
  padding? : Option Int
  borderRadius? : Option Int
  opacity? : Option ℚ
  deriving DecidableEq, Repr

/-- The `"effects" -> "outline"` sub-document. -/
structure OutlineDoc where
  enabled? : Option Bool
  width? : Option Int
  deriving DecidableEq, Repr

/-- The `"effects" -> "shadow"` sub-document. -/
structure ShadowDoc where
  enabled? : Option Bool
  offsetX? : Option Int
  offsetY? : Option Int
  blur? : Option Int
  deriving DecidableEq, Repr

/-- The `"effects"` sub-document; `effects_data.get("outline", {})`
yields an empty dict, i.e. a record of `none`s, when absent. -/
structure EffectsDoc where
  outline? : Option OutlineDoc
  shadow? : Option ShadowDoc
  deriving DecidableEq, Repr

/-- The `"animation"` sub-document. -/
structure AnimationDoc where
  entry? : Option String
  exit? : Option String
  duration? : Option Int
  wordStagger? : Option Int
  deriving DecidableEq, Repr

/-- A theme document: the top-level dict. -/
structure ThemeDoc where
  name? : Option String
  version? : Option String
  font? : Option FontDoc
  colors? : Option ColorDoc
  highlight? : Option HighlightDoc
  layout? : Option LayoutDoc
  background? : Option BackgroundDoc
  effects? : Option EffectsDoc
  animation? : Option AnimationDoc
  deriving DecidableEq, Repr

/-- The empty dict `{}` used by `effects_data.get("outline", {})`. -/
def emptyOutlineDoc : OutlineDoc := ⟨none, none⟩

/-- The empty dict `{}` used by `effects_data.get("shadow", {})`. -/
def emptyShadowDoc : ShadowDoc := ⟨none, none, none, none⟩

/-- `SubtitleThemeConfig.from_dict` (`theme_config.py:115-208`), with the
`data is None` guard modelled by the outer `Option`. -/
def SubtitleThemeConfig.from_dict (data : Option ThemeDoc) : SubtitleThemeConfig :=
  let config := defaultTheme
  match data with
  | none => config
  | some d =>
    { name := d.name?.getD config.name
      version := d.version?.getD config.version
      font :=
        match d.font? with
        | none => config.font
        | some fd =>
          { family := fd.family?.getD config.font.family
            size := fd.size?.getD config.font.size
            weight := fd.weight?.getD config.font.weight
            style := fd.style?.getD config.font.style }
      colors :=
        match d.colors? with
        | none => config.colors
        | some cd =>
          { primary := cd.primary?.getD config.colors.primary
            highlight := cd.highlight?.getD config.colors.highlight
            background := cd.background?.getD config.colors.background
            outline := cd.outline?.getD config.colors.outline
            shadow := cd.shadow?.getD config.colors.shadow }
      highlight :=
        match d.highlight? with
        | none => config.highlight
        | some hd =>
          { enabled := hd.enabled?.getD config.highlight.enabled
            mode := hd.mode?.getD config.highlight.mode
            style := hd.style?.getD config.highlight.style
            transition := hd.transition?.getD config.highlight.transition }
      layout :=
        match d.layout? with
        | none => config.layout
        | some ld =>
          { position := ld.position?.getD config.layout.position
            customY := ld.customY?.getD config.layout.customY
            maxWordsPerLine := ld.maxWordsPerLine?.getD config.layout.maxWordsPerLine
            alignment := ld.alignment?.getD config.layout.alignment
            marginX := ld.marginX?.getD config.layout.marginX
            marginY := ld.marginY?.getD config.layout.marginY }
      background :=
        match d.background? with
        | none => config.background
        | some bd =>
          { enabled := bd.enabled?.getD config.background.enabled
            style := bd.style?.getD config.background.style
            padding := bd.padding?.getD config.background.padding
            borderRadius := bd.borderRadius?.getD config.background.borderRadius
            opacity := bd.opacity?.getD config.background.opacity }
      effects :=
        match d.effects? with
        | none => config.effects
        | some ed =>
          let od := ed.outline?.getD emptyOutlineDoc
          let sd := ed.shadow?.getD emptyShadowDoc
          { outline :=
              { enabled := od.enabled?.getD config.effects.outline.enabled
                width := od.width?.getD config.effects.outline.width }
            shadow :=
              { enabled := sd.enabled?.getD config.effects.shadow.enabled
                offsetX := sd.offsetX?.getD config.effects.shadow.offsetX
                offsetY := sd.offsetY?.getD config.effects.shadow.offsetY
                blur := sd.blur?.getD config.effects.shadow.blur } }
      animation :=
        match d.animation? with
        | none => config.animation
        | some ad =>
          { entry := ad.entry?.getD config.animation.entry
            exit := ad.exit?.getD config.animation.exit
            duration := ad.duration?.getD config.animation.duration
            wordStagger := ad.wordStagger?.getD config.animation.wordStagger } }

/-- `SubtitleThemeConfig.to_dict` (`theme_config.py:210-267`): every
field is always emitted. -/
def SubtitleThemeConfig.to_dict (c : SubtitleThemeConfig) : ThemeDoc where
  name? := some c.name
  version? := some c.version
  font? := some
    { family? := some c.font.family, size? := some c.font.size
      weight? := some c.font.weight, style? := some c.font.style }
  colors? := some
    { primary? := some c.colors.primary, highlight? := some c.colors.highlight
      background? := some c.colors.background, outline? := some c.colors.outline
      shadow? := some c.colors.shadow }
  highlight? := some
    { enabled? := some c.highlight.enabled, mode? := some c.highlight.mode
      style? := some c.highlight.style, transition? := some c.highlight.transition }
  layout? := some
    { position? := some c.layout.position, customY? := some c.layout.customY
      maxWordsPerLine? := some c.layout.maxWordsPerLine
      alignment? := some c.layout.alignment, marginX? := some c.layout.marginX
      marginY? := some c.layout.marginY }
  background? := some
    { enabled? := some c.background.enabled, style? := some c.background.style
      padding? := some c.background.padding
      borderRadius? := some c.background.borderRadius
      opacity? := some c.background.opacity }
  effects? := some
    { outline? := some
        { enabled? := some c.effects.outline.enabled
          width? := some c.effects.outline.width }
      shadow? := some
        { enabled? := some c.effects.shadow.enabled
          offsetX? := some c.effects.shadow.offsetX
          offsetY? := some c.effects.shadow.offsetY
          blur? := some c.effects.shadow.blur } }
  animation? := some
    { entry? := some c.animation.entry, exit? := some c.animation.exit
      duration? := some c.animation.duration
      wordStagger? := some c.animation.wordStagger }

/-! ## Inline color-interpolation tags — `subtitle_renderer.py`

`colorTag` and `transitionTag` are the generic ASS override-tag shapes;
the two strategy-specific builders are the f-strings at
`subtitle_renderer.py:175` and `subtitle_renderer.py:226`, written as the
source writes them (flat concatenation). -/

/-- ASS primary-color override `\c<token>`. -/
def colorTag (c : String) : String := "\\c" ++ c

/-- ASS animated transform `\t(<t1>,<t2>,<arg>)`: interpolate `arg` over
the window from `t1` to `t2` (milliseconds, relative to line start). -/
def transitionTag (t1 t2 : Int) (arg : String) : String :=
  "\\t(" ++ toString t1 ++ "," ++ toString t2 ++ "," ++ arg ++ ")"

/-- The karaoke strategy's per-word tags (`subtitle_renderer.py:175`). -/
def karaokeColorTags (primaryColor highlightColor : String)
    (wordStartRel wordEndRel : Int) : String :=
  "\\c" ++ primaryColor ++
    "\\t(" ++ toString wordStartRel ++ "," ++ toString wordStartRel ++
    ",\\c" ++ highlightColor ++ ")\\t(" ++ toString wordEndRel ++ "," ++
    toString wordEndRel ++ ",\\c" ++ primaryColor ++ ")"

/-- The per-word-background strategy's per-word tags
(`subtitle_renderer.py:226`). -/
def perWordColorTags (primaryColor highlightColor : String)
    (wordStartRel wordEndRel : Int) : String :=
  "\\c" ++ primaryColor ++
    "\\t(" ++ toString wordStartRel ++ "," ++ toString (wordStartRel + 50) ++
    ",\\c" ++ highlightColor ++ ")\\t(" ++ toString wordEndRel ++ "," ++
    toString (wordEndRel + 50) ++ ",\\c" ++ primaryColor ++ ")"

/-- Body of the word loop at `subtitle_renderer.py:159-178`: the text
part emitted for one word of a karaoke chunk. -/
def karaokeWordPart (θ : SubtitleThemeConfig) (chunkStart : ℚ)
    (w : WordTiming) : Except HexColorError String :=
  if θ.highlight.enabled then do
    let wordStartRel := pyInt ((w.start - chunkStart) * 1000)
    let wordEndRel := pyInt ((w.stop - chunkStart) * 1000)
    let primaryColor ← hex_to_ass_color θ.colors.primary
    let highlightColor ← hex_to_ass_color θ.colors.highlight
    pure ("\x7b" ++ karaokeColorTags primaryColor highlightColor
      wordStartRel wordEndRel ++ "\x7d" ++ w.word)
  else pure w.word

/-- Body of the word loop at `subtitle_renderer.py:211-228`: the text
part emitted for one word of a per-word-background chunk.  (The source
also computes an unused local `duration_ms` from the chunk bounds; the
dead local is not modelled.) -/
def perWordWordPart (θ : SubtitleThemeConfig) (chunkStart : ℚ)
    (w : WordTiming) : Except HexColorError String := do
  let highlightColor ← hex_to_ass_color θ.colors.highlight
  let primaryColor ← hex_to_ass_color θ.colors.primary
  let wordStartRel := pyInt ((w.start - chunkStart) * 1000)
  let wordEndRel := pyInt ((w.stop - chunkStart) * 1000)
  pure ("\x7b" ++ perWordColorTags primaryColor highlightColor
    wordStartRel wordEndRel ++ "\x7d" ++ w.word)

/-! ## Segment rendering — `subtitle_renderer.py:95-244` -/

/-- `SubtitleRenderer.render_segment_simple`.  Python truthiness of
`effects` is non-emptiness. -/
def render_segment_simple (θ : SubtitleThemeConfig) (segment : Segment) : String :=
  let start := format_time_ass (segment.start?.getD 0)
  let stop := format_time_ass (segment.stop?.getD 0)
  let text := pyStrip (segment.text?.getD "")
  let durationMs := pyInt ((segment.stop?.getD 0 - segment.start?.getD 0) * 1000)
  let effects :=
    (if θ.animation.entry ≠ "none" then
      get_entry_effect θ.animation.entry θ.animation.duration else "") ++
    (if θ.animation.exit ≠ "none" then
      get_exit_effect θ.animation.exit θ.animation.duration durationMs else "")
  let text := if effects ≠ "" then "\x7b" ++ effects ++ "\x7d" ++ text else text
  "Dialogue: 0," ++ start ++ "," ++ stop ++ ",Default,,0,0,0,," ++ text ++ "\n"

/-- One iteration of the chunk loop of `render_segment_karaoke`
(`subtitle_renderer.py:132-181`); the empty chunk contributes nothing
(`continue`). -/
def karaokeChunkLine (θ : SubtitleThemeConfig) (chunk : List WordTiming) :
    Except HexColorError String :=
  match chunk with
  | [] => .ok ""
  | w0 :: _ => do
    let chunkStart := w0.start
    let chunkEnd := (chunk.getLast?.getD w0).stop
    let durationMs := pyInt ((chunkEnd - chunkStart) * 1000)
    let entryEffect :=
      if θ.animation.entry ≠ "none" then
        get_entry_effect θ.animation.entry θ.animation.duration else ""
    let exitEffect :=
      if θ.animation.exit ≠ "none" then
        get_exit_effect θ.animation.exit θ.animation.duration durationMs else ""
    let preamble :=
      if entryEffect ≠ "" ∨ exitEffect ≠ "" then
        "\x7b" ++ entryEffect ++ exitEffect ++ "\x7d"
      else ""
    let parts ← chunk.mapM (karaokeWordPart θ chunkStart)
    let text := preamble ++ String.intercalate " " parts
    pure ("Dialogue: 0," ++ format_time_ass chunkStart ++ "," ++
      format_time_ass chunkEnd ++ ",Default,,0,0,0,," ++ text ++ "\n")

/-- `SubtitleRenderer.render_segment_karaoke`. -/
def render_segment_karaoke (θ : SubtitleThemeConfig) (segment : Segment) :
    Except HexColorError String :=
  let wordTimings := calculate_word_timings segment
  if wordTimings = [] then .ok (render_segment_simple θ segment)
  else do
    let chunks := chunk_words wordTimings θ.layout.maxWordsPerLine
    let lines ← chunks.mapM (karaokeChunkLine θ)
    pure (String.join lines)

/-- One iteration of the chunk loop of
`render_segment_per_word_background` (`subtitle_renderer.py:198-242`). -/
def perWordChunkLine (θ : SubtitleThemeConfig) (chunk : List WordTiming) :
    Except HexColorError String :=
  match chunk with
  | [] => .ok ""
  | w0 :: _ => do
    let chunkStart := w0.start
    let chunkEnd := (chunk.getLast?.getD w0).stop
    let parts ← chunk.mapM (perWordWordPart θ chunkStart)
    let pre0 :=
      (if θ.animation.entry ≠ "none" then
        "\\fad(" ++ toString θ.animation.duration ++ ",0)" else "") ++
      (if θ.animation.exit ≠ "none" then
        "\\fad(0," ++ toString θ.animation.duration ++ ")" else "")
    let preamble := if pre0 ≠ "" then "\x7b" ++ pre0 ++ "\x7d" else ""
    let text := preamble ++ String.intercalate " " parts
    pure ("Dialogue: 0," ++ format_time_ass chunkStart ++ "," ++
      format_time_ass chunkEnd ++ ",Default,,0,0,0,," ++ text ++ "\n")

/-- `SubtitleRenderer.render_segment_per_word_background`. -/
def render_segment_per_word_background (θ : SubtitleThemeConfig)
    (segment : Segment) : Except HexColorError String :=
  let wordTimings := calculate_word_timings segment
  if wordTimings = [] then .ok (render_segment_simple θ segment)
  else do
    let chunks := chunk_words wordTimings θ.layout.maxWordsPerLine
    let lines ← chunks.mapM (perWordChunkLine θ)
    pure (String.join lines)

/-! ## Header — `SubtitleRenderer.generate_ass_header` -/

/-- The `margin_v` elif-chain (`subtitle_renderer.py:46-52`): note the
`custom_y` branch applies whenever `position` is neither `"top"` nor
`"center"` and `custom_y` is set. -/
def assMarginV (θ : SubtitleThemeConfig) (videoHeight : Int) : Int :=
  if θ.layout.position = "top" then θ.layout.marginY
  else if θ.layout.position = "center" then videoHeight.fdiv 2 - 100
  else match θ.layout.customY with
    | some cy => pyInt ((videoHeight : ℚ) * cy / 100)
    | none => θ.layout.marginY

/-- One `Style:` record (`subtitle_renderer.py:87-88`): everything after
the style name is determined by the theme, the colors and the computed
codes. -/
def assStyleLine (styleName : String) (θ : SubtitleThemeConfig)
    (primaryColor secondaryColor outlineColor backColor : String)
    (borderStyle : Nat) (outlineWidth shadowDepth : Int) (alignment : Nat)
    (marginV : Int) : String :=
  let bold : Int := if θ.font.weight = "bold" then -1 else 0
  let italic : Int := if θ.font.style = "italic" then -1 else 0
  "Style: " ++ styleName ++ "," ++ θ.font.family ++ "," ++
    toString θ.font.size ++ "," ++ primaryColor ++ "," ++ secondaryColor ++
    "," ++ outlineColor ++ "," ++ backColor ++ "," ++ toString bold ++ "," ++
    toString italic ++ ",0,0,100,100,0,0," ++ toString borderStyle ++ "," ++
    toString outlineWidth ++ "," ++ toString shadowDepth ++ "," ++
    toString alignment ++ "," ++ toString θ.layout.marginX ++ "," ++
    toString θ.layout.marginX ++ "," ++ toString marginV ++ ",1"

/-- The lines of the header f-string (`subtitle_renderer.py:76-92`),
including the trailing empty line produced by the final `\n` of the
triple-quoted literal.  `pc sc oc bc` are the already-converted primary /
secondary(highlight) / outline / back colors. -/
def assHeaderLines (θ : SubtitleThemeConfig) (videoWidth videoHeight : Int)
    (pc sc oc bc : String) : List String :=
  let borderStyle : Nat :=
    if θ.background.enabled ∧ θ.background.style = "single" then 3 else 1
  let outlineWidth : Int :=
    if θ.effects.outline.enabled then θ.effects.outline.width else 0
  let shadowDepth : Int :=
    if θ.effects.shadow.enabled then θ.effects.shadow.offsetX else 0
  let alignment := get_alignment_code θ.layout.position θ.layout.alignment
  let marginV := assMarginV θ videoHeight
  [ "[Script Info]",
    "Title: " ++ θ.name,
    "ScriptType: v4.00+",
    "WrapStyle: 0",
    "ScaledBorderAndShadow: yes",
    "YCbCr Matrix: TV.709",
    "PlayResX: " ++ toString videoWidth,
    "PlayResY: " ++ toString videoHeight,
    "",
    "[V4+ Styles]",
    "Format: Name, Fontname, Fontsize, PrimaryColour, SecondaryColour, OutlineColour, BackColour, Bold, Italic, Underline, StrikeOut, ScaleX, ScaleY, Spacing, Angle, BorderStyle, Outline, Shadow, Alignment, MarginL, MarginR, MarginV, Encoding",
    assStyleLine "Default" θ pc sc oc bc borderStyle outlineWidth shadowDepth
      alignment marginV,
    assStyleLine "Highlight" θ sc sc oc bc borderStyle outlineWidth shadowDepth
      alignment marginV,
    "",
    "[Events]",
    "Format: Layer, Start, End, Style, Name, MarginL, MarginR, MarginV, Effect, Text",
    "" ]

/-- Join lines with `'\n'`: the shape of the multi-line f-string literal. -/
def joinLines : List String → String
  | [] => ""
  | [l] => l
  | l :: ls => l ++ "\n" ++ joinLines ls

/-- `SubtitleRenderer.generate_ass_header`.  The `Highlight` style's
`PrimaryColour` is `hex_to_ass_color(theme.colors.highlight)` evaluated a
second time in the source; the function is pure, so the previously
converted `sc` is the same string. -/
def generate_ass_header (θ : SubtitleThemeConfig) (videoWidth videoHeight : Int) :
    Except HexColorError String := do
  let pc ← hex_to_ass_color θ.colors.primary
  let sc ← hex_to_ass_color θ.colors.highlight
  let oc ← hex_to_ass_color θ.colors.outline
  let bc ← hex_to_ass_color θ.colors.background
  pure (joinLines (assHeaderLines θ videoWidth videoHeight pc sc oc bc))

/-- `SubtitleRenderer.render_segments`: strategy selection per segment
(`subtitle_renderer.py:246-266`). -/
def render_segments (θ : SubtitleThemeConfig) (videoWidth videoHeight : Int)
    (segments : List Segment) : Except HexColorError String := do
  let header ← generate_ass_header θ videoWidth videoHeight
  segments.foldlM (fun acc segment => do
    let piece ←
      if θ.background.style = "per_word" then
        render_segment_per_word_background θ segment
      else if θ.highlight.enabled then
        render_segment_karaoke θ segment
      else
        pure (render_segment_simple θ segment)
    pure (acc ++ piece)) header

/-! ## Line splitting

The claim about the header counts lines of the generated text; lines are
recovered by splitting the character list at `'\n'` (the list returned is
always non-empty; splitting the empty text yields one empty line). -/

/-- Split a character list at newline characters. -/
def splitNlChars : List Char → List (List Char)
  | [] => [[]]
  | c :: cs =>
    let r := splitNlChars cs
    if c = '\n' then [] :: r else (c :: r.headD []) :: r.tail

/-- The lines of a string. -/
def linesOf (s : String) : List (List Char) :=
  splitNlChars s.data

/-- The lines of `s` that begin with `"Style: "`. -/
def styleLinesOf (s : String) : List (List Char) :=
  (linesOf s).filter (fun l => "Style: ".data.isPrefixOf l)

/-- A string free of newline characters. -/
def noNewline (s : String) : Prop := '\n' ∉ s.data

instance (s : String) : Decidable (noNewline s) := by
  unfold noNewline; infer_instance

/-- A theme equal to the defaults except for a name containing a newline
followed by a `Style:` prefix.  Its five color fields are the (valid)
default hex strings. -/
def evilTheme : SubtitleThemeConfig :=
  { defaultTheme with name := "evil\nStyle: Injected,Arial" }

/-! ## Helper lemmas -/

theorem hexColorCore_wrong_length (l : List Char) (h6 : l.length ≠ 6)
    (h8 : l.length ≠ 8) : hexColorCore l = .error .invalidColorFormat := by
  rcases l with _ | ⟨a, _ | ⟨b, _ | ⟨c, _ | ⟨d, _ | ⟨e, _ | ⟨f, _ | ⟨g, _ |
    ⟨h, _ | ⟨i, t⟩⟩⟩⟩⟩⟩⟩⟩⟩ <;> first | rfl | simp at h6 h8

theorem hexUpperDigit_mem (d : Nat) (hd : d < 16) :
    hexUpperDigit d ∈ "0123456789ABCDEF".data := by
  interval_cases d <;> decide

theorem toHex2_two_upper_digits (n : Nat) :
    (toHex2 n).length = 2 ∧
      (n < 256 → ∀ c ∈ (toHex2 n).data, c ∈ "0123456789ABCDEF".data) := by
  refine ⟨rfl, fun hn c hc => ?_⟩
  have h1 : n / 16 < 16 := Nat.div_lt_of_lt_mul (by omega)
  have h2 : n % 16 < 16 := Nat.mod_lt _ (by omega)
  have hc' : c = hexUpperDigit (n / 16) ∨ c = hexUpperDigit (n % 16) := by
    simpa [toHex2] using hc
  rcases hc' with hc' | hc'
  · exact hc' ▸ hexUpperDigit_mem _ h1
  · exact hc' ▸ hexUpperDigit_mem _ h2

/-! ## Claims -/

/-- C1: for every hex color string, after `lstrip('#')`: with 6 hex
digits the result is the token `&H` + alpha byte `00` + blue, green, red
channels, each exactly two uppercase hex digits; with 8 hex digits the
output alpha byte is `255 - inputAlpha`; for any other length the
function fails with `InvalidColorFormat`. -/
theorem C1_hex_to_ass_color (s : String) :
    (∀ c1 c2 c3 c4 c5 c6 r g b,
      s.data.dropWhile (· = '#') = [c1, c2, c3, c4, c5, c6] →
      parseHexByte c1 c2 = some r → parseHexByte c3 c4 = some g →
      parseHexByte c5 c6 = some b →
      hex_to_ass_color s =
        .ok ("&H" ++ toHex2 0 ++ toHex2 b ++ toHex2 g ++ toHex2 r) ∧
      toHex2 0 = "00") ∧
    (∀ c1 c2 c3 c4 c5 c6 c7 c8 r g b a,
      s.data.dropWhile (· = '#') = [c1, c2, c3, c4, c5, c6, c7, c8] →
      parseHexByte c1 c2 = some r → parseHexByte c3 c4 = some g →
      parseHexByte c5 c6 = some b → parseHexByte c7 c8 = some a →
      hex_to_ass_color s =
        .ok ("&H" ++ toHex2 (255 - a) ++ toHex2 b ++ toHex2 g ++ toHex2 r)) ∧
    ((s.data.dropWhile (· = '#')).length ≠ 6 →
      (s.data.dropWhile (· = '#')).length ≠ 8 →
      hex_to_ass_color s = .error .invalidColorFormat) ∧
    (∀ n, n ≤ 255 →
      (toHex2 n).length = 2 ∧ ∀ c ∈ (toHex2 n).data, c ∈ "0123456789ABCDEF".data) := by
  refine ⟨?_, ?_, ?_, ?_⟩
  · intro c1 c2 c3 c4 c5 c6 r g b hl hr hg hb
    refine ⟨?_, rfl⟩
    simp [hex_to_ass_color, hl, hexColorCore, hr, hg, hb, assColorToken]
  · intro c1 c2 c3 c4 c5 c6 c7 c8 r g b a hl hr hg hb ha
    simp [hex_to_ass_color, hl, hexColorCore, hr, hg, hb, ha, assColorToken]
  · intro h6 h8
    exact hexColorCore_wrong_length _ h6 h8
  · intro n hn
    exact ⟨(toHex2_two_upper_digits n).1,
      (toHex2_two_upper_digits n).2 (by omega)⟩

/-- Witness for C1: concrete 6-digit, 8-digit (alpha `CC` ↦ `33`) and
wrong-length inputs. -/
theorem C1_hex_to_ass_color_witness :
    hex_to_ass_color "#80FF00" = .ok "&H0000FF80" ∧
    hex_to_ass_color "#80FF00CC" = .ok "&H3300FF80" ∧
    hex_to_ass_color "#FFF" = .error .invalidColorFormat := by
  refine ⟨?_, ?_, ?_⟩
  · have h := ((C1_hex_to_ass_color "#80FF00").1 '8' '0' 'F' 'F' '0' '0'
      128 255 0 rfl rfl rfl rfl).1
    simpa using h
  · have h := (C1_hex_to_ass_color "#80FF00CC").2.1 '8' '0' 'F' 'F' '0' '0'
      'C' 'C' 128 255 0 204 rfl rfl rfl rfl rfl
    simpa using h
  · exact (C1_hex_to_ass_color "#FFF").2.2.1 (by decide) (by decide)

/-- C9: a hex color whose stripped form has a wrong length fails fast
with `InvalidColorFormat`, while an unrecognized entry/exit effect name
never fails and degrades to the empty markup fragment. -/
theorem C9_error_asymmetry :
    (∀ s : String, (s.data.dropWhile (· = '#')).length ≠ 6 →
      (s.data.dropWhile (· = '#')).length ≠ 8 →
      hex_to_ass_color s = .error .invalidColorFormat) ∧
    (∀ effectName, effectName ∉ recognizedEffects →
      ∀ duration totalDuration : Int,
        get_entry_effect effectName duration = "" ∧
        get_exit_effect effectName duration totalDuration = "") := by
  refine ⟨fun s h6 h8 => hexColorCore_wrong_length _ h6 h8, ?_⟩
  intro effectName hn duration totalDuration
  simp only [recognizedEffects, List.mem_cons, List.mem_singleton, not_or] at hn
  obtain ⟨h1, h2, h3, h4, h5, h6⟩ := hn
  constructor
  · simp [get_entry_effect, h1, h2, h3, h4, h5, h6]
  · simp [get_exit_effect, h1, h2, h3, h4, h5, h6]

/-- Witness for C9: the malformed color `"#FFF"` and the unrecognized
effect name `"zoom"`. -/
theorem C9_error_asymmetry_witness :
    hex_to_ass_color "#FFF" = .error .invalidColorFormat ∧
    get_entry_effect "zoom" 200 = "" ∧ get_exit_effect "zoom" 200 1000 = "" :=
  ⟨C9_error_asymmetry.1 "#FFF" (by decide) (by decide),
    (C9_error_asymmetry.2 "zoom" (by decide) 200 1000).1,
    (C9_error_asymmetry.2 "zoom" (by decide) 200 1000).2⟩

/-- C5 fails as stated: its own base-plus-offset table gives
`alignmentCode("bottom","center") = 1 + 1 = 2`, and the code agrees, so
the claimed example value `5` is false. -/
theorem C5_counterexample :
    get_alignment_code "bottom" "center" = 2 ∧
      get_alignment_code "bottom" "center" ≠ 5 := by
  constructor <;> decide

/-- C5 (amended): on the enumerated positions and alignments the code is
base + offset with bases bottom=1, center=4, top=7, custom=1 and offsets
left=0, center=1, right=2, always within 1–9; the example values are
`alignmentCode("bottom","center") = 2` (not 5),
`alignmentCode("top","left") = 7`, `alignmentCode("center","right") = 6`. -/
theorem C5_alignment_code (position align : String)
    (hp : position ∈ ["bottom", "center", "top", "custom"])
    (ha : align ∈ ["left", "center", "right"]) :
    get_alignment_code position align =
      specPosBase position + specAlignOffset align ∧
    1 ≤ get_alignment_code position align ∧
    get_alignment_code position align ≤ 9 ∧
    get_alignment_code "bottom" "center" = 2 ∧
    get_alignment_code "top" "left" = 7 ∧
    get_alignment_code "center" "right" = 6 := by
  fin_cases hp <;> fin_cases ha <;> refine ⟨by decide, by decide, by decide,
    by decide, by decide, by decide⟩

/-- Witness for C5 at `("top", "left")`. -/
theorem C5_alignment_code_witness :
    get_alignment_code "top" "left" =
      specPosBase "top" + specAlignOffset "left" ∧
    1 ≤ get_alignment_code "top" "left" ∧
    get_alignment_code "top" "left" ≤ 9 ∧
    get_alignment_code "bottom" "center" = 2 ∧
    get_alignment_code "top" "left" = 7 ∧
    get_alignment_code "center" "right" = 6 :=
  C5_alignment_code "top" "left" (by decide) (by decide)

/-- Invariant of the `chunk_words` loop: with a partial chunk shorter
than `maxWords`, the emitted chunks concatenate back to `cur ++ ws`, all
chunks are non-empty and at most `maxWords` long, and every chunk except
possibly the last is exactly `maxWords` long. -/
theorem chunkLoop_spec {α : Type _} (m : Int) (hm : 1 ≤ m) :
    ∀ (ws cur : List α), (cur.length : Int) < m →
      (chunkLoop m ws cur).flatten = cur ++ ws ∧
      (∀ c ∈ chunkLoop m ws cur, c ≠ [] ∧ (c.length : Int) ≤ m) ∧
      (∀ c ∈ (chunkLoop m ws cur).dropLast, (c.length : Int) = m) := by
  intro ws
  induction ws with
  | nil =>
    intro cur hcur
    match cur with
    | [] => exact ⟨rfl, by simp [chunkLoop], by simp [chunkLoop]⟩
    | x :: xs =>
      refine ⟨by simp [chunkLoop], ?_, by simp [chunkLoop]⟩
      intro c hc
      simp only [chunkLoop, List.mem_singleton] at hc
      subst hc
      exact ⟨by simp, le_of_lt hcur⟩
  | cons w rest ih =>
    intro cur hcur
    by_cases hge : ((cur ++ [w]).length : Int) ≥ m
    · have hlen : ((cur ++ [w]).length : Int) = m := by
        simp only [List.length_append, List.length_singleton] at hge ⊢
        push_cast at hcur hge ⊢
        omega
      have h0 : ((([] : List α)).length : Int) < m := by simp; omega
      obtain ⟨ihj, ihm, ihd⟩ := ih [] h0
      have hloop : chunkLoop m (w :: rest) cur =
          (cur ++ [w]) :: chunkLoop m rest [] := by
        simp only [chunkLoop, if_pos hge]
      refine ⟨?_, ?_, ?_⟩
      · simp [hloop, ihj]
      · intro c hc
        rw [hloop, List.mem_cons] at hc
        rcases hc with rfl | hc
        · exact ⟨by simp, le_of_eq hlen⟩
        · exact ihm c hc
      · intro c hc
        rw [hloop] at hc
        match hrec : chunkLoop m rest [] with
        | [] => rw [hrec] at hc; simp at hc
        | r :: rs =>
          rw [hrec] at hc
          rw [List.dropLast_cons₂] at hc
          rcases List.mem_cons.mp hc with rfl | hc
          · exact hlen
          · exact ihd c (by rw [hrec]; exact hc)
    · push_neg at hge
      obtain ⟨ihj, ihm, ihd⟩ := ih (cur ++ [w]) hge
      have hloop : chunkLoop m (w :: rest) cur =
          chunkLoop m rest (cur ++ [w]) := by
        simp only [chunkLoop, if_neg (not_le.mpr hge)]
      rw [hloop]
      exact ⟨by rw [ihj]; simp, ihm, ihd⟩

/-- C3: `chunk_words` greedily fills chunks of exactly `maxWords`,
emits the trailing partial chunk, yields nothing on empty input, and
produces the claimed output on the 7-word example with `maxWords = 3`. -/
theorem C3_chunk_words {α : Type} (ws : List α) (m : Int) (hm : 1 ≤ m) :
    chunk_words ([] : List α) m = [] ∧
    (chunk_words ws m).flatten = ws ∧
    (∀ c ∈ chunk_words ws m, c ≠ [] ∧ (c.length : Int) ≤ m) ∧
    (∀ c ∈ (chunk_words ws m).dropLast, (c.length : Int) = m) ∧
    chunk_words ["a", "b", "c", "d", "e", "f", "g"] (3 : Int) =
      [["a", "b", "c"], ["d", "e", "f"], ["g"]] := by
  have h0 : ((([] : List α)).length : Int) < m := by simp; omega
  obtain ⟨hj, hmem, hd⟩ := chunkLoop_spec m hm ws [] h0
  exact ⟨rfl, by simpa [chunk_words] using hj, hmem, hd, by decide⟩

/-- Witness for C3 at `["x","y","z"]` with `maxWords = 2`. -/
theorem C3_chunk_words_witness :
    chunk_words ([] : List String) 2 = [] ∧
    (chunk_words ["x", "y", "z"] 2).flatten = ["x", "y", "z"] ∧
    (∀ c ∈ chunk_words ["x", "y", "z"] 2, c ≠ [] ∧ (c.length : Int) ≤ 2) ∧
    (∀ c ∈ (chunk_words ["x", "y", "z"] 2).dropLast, (c.length : Int) = 2) ∧
    chunk_words ["a", "b", "c", "d", "e", "f", "g"] (3 : Int) =
      [["a", "b", "c"], ["d", "e", "f"], ["g"]] :=
  C3_chunk_words ["x", "y", "z"] 2 (by norm_num)

/-- C7: deserializing the serialization of the all-defaults theme gives
back the all-defaults theme, field for field. -/
theorem C7_theme_roundtrip :
    SubtitleThemeConfig.from_dict (some defaultTheme.to_dict) = defaultTheme :=
  rfl

/-! ### Decimal representation facts (for the time formatter and the
header) -/

theorem digitChar_ne_newline (n : Nat) : Nat.digitChar n ≠ '\n' := by
  by_cases h : n < 16
  · have key : ∀ m, m < 16 → Nat.digitChar m ≠ '\n' := by decide
    exact key n h
  · have hstar : Nat.digitChar n = '*' := by
      unfold Nat.digitChar
      repeat rw [if_neg (by omega)]
    rw [hstar]
    decide

theorem digitChar_pos (m : Nat) (h10 : m < 10) (h0 : m ≠ 0) :
    Nat.digitChar m ≠ '0' ∧ (Nat.digitChar m).isDigit = true := by
  have key : ∀ k, k < 10 → k ≠ 0 →
      Nat.digitChar k ≠ '0' ∧ (Nat.digitChar k).isDigit = true := by decide
  exact key m h10 h0

/-- Every character that `toDigitsCore` prepends is a `digitChar` of a
value below the base. -/
theorem toDigitsCore_chars (fuel : Nat) :
    ∀ (n : Nat) (ds : List Char), ∀ c ∈ Nat.toDigitsCore 10 fuel n ds,
      c ∈ ds ∨ ∃ m, m < 10 ∧ c = Nat.digitChar m := by
  induction fuel with
  | zero => intro n ds c hc; exact .inl hc
  | succ fuel ih =>
    intro n ds c hc
    unfold Nat.toDigitsCore at hc
    by_cases h : n / 10 = 0
    · rw [if_pos h] at hc
      rcases List.mem_cons.mp hc with rfl | hc
      · exact .inr ⟨n % 10, Nat.mod_lt _ (by omega), rfl⟩
      · exact .inl hc
    · rw [if_neg h] at hc
      rcases ih (n / 10) (Nat.digitChar (n % 10) :: ds) c hc with hin | hm
      · rcases List.mem_cons.mp hin with rfl | hin
        · exact .inr ⟨n % 10, Nat.mod_lt _ (by omega), rfl⟩
        · exact .inl hin
      · exact .inr hm

/-- With enough fuel and `n ≠ 0`, `toDigitsCore` yields a list headed by
a non-zero digit. -/
theorem toDigitsCore_head (fuel : Nat) :
    ∀ (n : Nat) (ds : List Char), n ≠ 0 → n ≤ fuel →
      ∃ c cs, Nat.toDigitsCore 10 fuel n ds = c :: cs ∧ c ≠ '0' ∧
        c.isDigit = true := by
  induction fuel with
  | zero => intro n ds hn hf; omega
  | succ fuel ih =>
    intro n ds hn hf
    unfold Nat.toDigitsCore
    by_cases h : n / 10 = 0
    · rw [if_pos h]
      have h10 : n < 10 := by
        rcases Nat.lt_or_ge n 10 with h' | h'
        · exact h'
        · exact absurd h (by
            have := Nat.div_le_div_right (c := 10) h'
            simp at this; omega)
      have hmod : n % 10 = n := Nat.mod_eq_of_lt h10
      exact ⟨Nat.digitChar (n % 10), ds, rfl, by
        rw [hmod]; exact digitChar_pos n h10 hn⟩
    · rw [if_neg h]
      have hlt : n / 10 < n := Nat.div_lt_self (by omega) (by omega)
      exact ih (n / 10) (Nat.digitChar (n % 10) :: ds) h (by omega)

theorem nat_repr_chars (n : Nat) :
    ∀ c ∈ (Nat.repr n).data, ∃ m, m < 10 ∧ c = Nat.digitChar m := by
  intro c hc
  have hc' : c ∈ Nat.toDigitsCore 10 (n + 1) n [] := hc
  rcases toDigitsCore_chars (n + 1) n [] c hc' with h | h
  · simp at h
  · exact h

theorem nat_repr_no_newline (n : Nat) : noNewline (Nat.repr n) := by
  intro hc
  rcases nat_repr_chars n '\n' hc with ⟨m, _, hm⟩
  exact digitChar_ne_newline m hm.symm

theorem nat_repr_head_ne_zero (n : Nat) (hn : n ≠ 0) :
    (Nat.repr n).data.head? ≠ some '0' := by
  obtain ⟨c, cs, hrepr, hc0, _⟩ :=
    toDigitsCore_head (n + 1) n [] hn (by omega)
  have : (Nat.repr n).data = c :: cs := hrepr
  rw [this]
  simpa using hc0

theorem int_toString_no_newline (i : Int) : noNewline (toString i) := by
  match i with
  | .ofNat m => exact nat_repr_no_newline m
  | .negSucc m =>
    intro hc
    have hdata : (toString (Int.negSucc m)).data =
        '-' :: (Nat.repr (m + 1)).data := rfl
    rw [hdata] at hc
    rcases List.mem_cons.mp hc with h | h
    · exact absurd h (by decide)
    · exact nat_repr_no_newline (m + 1) h

theorem nat_toString_no_newline (n : Nat) : noNewline (toString n) :=
  nat_repr_no_newline n

/-! ### Bounds on `pyFmod` and the time-field values -/

theorem pyFmod_eq_fract (a b : ℚ) (hb : 0 < b) :
    pyFmod a b = b * Int.fract (a / b) := by
  unfold pyFmod Int.fract
  field_simp

theorem pyFmod_nonneg (a b : ℚ) (hb : 0 < b) : 0 ≤ pyFmod a b := by
  rw [pyFmod_eq_fract a b hb]
  exact mul_nonneg hb.le (Int.fract_nonneg _)

theorem pyFmod_lt (a b : ℚ) (hb : 0 < b) : pyFmod a b < b := by
  rw [pyFmod_eq_fract a b hb]
  calc b * Int.fract (a / b) < b * 1 := by
        exact mul_lt_mul_of_pos_left (Int.fract_lt_one _) hb
    _ = b := mul_one b

theorem int_toString_of_nonneg (i : Int) (h : 0 ≤ i) :
    toString i = Nat.repr i.toNat := by
  match i, h with
  | .ofNat m, _ => rfl
  | .negSucc m, h => exact absurd h (by simp)

theorem pad2_small (n : Nat) (h : n < 100) :
    (pad2 (n : Int)).length = 2 ∧ ∀ c ∈ (pad2 (n : Int)).data, c.isDigit = true := by
  have key : ∀ m : Nat, m < 100 →
      (pad2 (m : Int)).length = 2 ∧
        ∀ c ∈ (pad2 (m : Int)).data, c.isDigit = true := by decide
  exact key n h

/-- C8: for every non-negative time, the formatter produces
`H:MM:SS.cc` — canonical unpadded hours (no leading zero), exactly
two-digit minutes, seconds and centiseconds, with the centisecond field
equal to `⌊frac(t) * 100⌋`. -/
theorem C8_format_time_ass (t : ℚ) (ht : 0 ≤ t) :
    ∃ H M S C : Nat,
      M < 60 ∧ S < 60 ∧ C < 100 ∧
      format_time_ass t =
        Nat.repr H ++ ":" ++ pad2 (M : Int) ++ ":" ++ pad2 (S : Int) ++ "." ++
          pad2 (C : Int) ∧
      (pad2 (M : Int)).length = 2 ∧ (pad2 (S : Int)).length = 2 ∧
      (pad2 (C : Int)).length = 2 ∧
      (∀ c ∈ (pad2 (M : Int)).data, c.isDigit = true) ∧
      (∀ c ∈ (pad2 (S : Int)).data, c.isDigit = true) ∧
      (∀ c ∈ (pad2 (C : Int)).data, c.isDigit = true) ∧
      (H ≠ 0 → (Nat.repr H).data.head? ≠ some '0') ∧
      (C : Int) = pyInt (pyFmod t 1 * 100) := by
  have h3600 : (0 : ℚ) < 3600 := by norm_num
  have h60 : (0 : ℚ) < 60 := by norm_num
  have h1 : (0 : ℚ) < 1 := by norm_num
  -- hours
  have hH0 : 0 ≤ ⌊t / 3600⌋ := Int.floor_nonneg.mpr (by positivity)
  -- minutes
  have hMnn : 0 ≤ ⌊pyFmod t 3600 / 60⌋ :=
    Int.floor_nonneg.mpr (by
      have := pyFmod_nonneg t 3600 h3600
      positivity)
  have hMlt : ⌊pyFmod t 3600 / 60⌋ < 60 := by
    apply Int.floor_lt.mpr
    have := pyFmod_lt t 3600 h3600
    push_cast
    rw [div_lt_iff₀ h60]
    linarith
  -- seconds
  have hSnn' : 0 ≤ pyFmod t 60 := pyFmod_nonneg t 60 h60
  have hSeq : pyInt (pyFmod t 60) = ⌊pyFmod t 60⌋ := if_pos hSnn'
  have hSnn : 0 ≤ ⌊pyFmod t 60⌋ := Int.floor_nonneg.mpr hSnn'
  have hSlt : ⌊pyFmod t 60⌋ < 60 := by
    apply Int.floor_lt.mpr
    have := pyFmod_lt t 60 h60
    push_cast
    linarith
  -- centiseconds
  have hCnn' : 0 ≤ pyFmod t 1 * 100 := by
    have := pyFmod_nonneg t 1 h1
    positivity
  have hCeq : pyInt (pyFmod t 1 * 100) = ⌊pyFmod t 1 * 100⌋ := if_pos hCnn'
  have hCnn : 0 ≤ ⌊pyFmod t 1 * 100⌋ := Int.floor_nonneg.mpr hCnn'
  have hClt : ⌊pyFmod t 1 * 100⌋ < 100 := by
    apply Int.floor_lt.mpr
    have := pyFmod_lt t 1 h1
    push_cast
    linarith
  refine ⟨(⌊t / 3600⌋).toNat, (⌊pyFmod t 3600 / 60⌋).toNat,
    (⌊pyFmod t 60⌋).toNat, (⌊pyFmod t 1 * 100⌋).toNat, ?_, ?_, ?_, ?_,
    ?_, ?_, ?_, ?_, ?_, ?_, ?_, ?_⟩
  · omega
  · omega
  · omega
  · show toString ⌊t / 3600⌋ ++ ":" ++ pad2 ⌊pyFmod t 3600 / 60⌋ ++ ":" ++
        pad2 (pyInt (pyFmod t 60)) ++ "." ++ pad2 (pyInt (pyFmod t 1 * 100)) = _
    rw [hSeq, hCeq, int_toString_of_nonneg _ hH0, Int.toNat_of_nonneg hMnn,
      Int.toNat_of_nonneg hSnn, Int.toNat_of_nonneg hCnn]
  · exact (pad2_small _ (by omega)).1
  · exact (pad2_small _ (by omega)).1
  · exact (pad2_small _ (by omega)).1
  · exact (pad2_small _ (by omega)).2
  · exact (pad2_small _ (by omega)).2
  · exact (pad2_small _ (by omega)).2
  · intro h0
    exact nat_repr_head_ne_zero _ h0
  · rw [hCeq, Int.toNat_of_nonneg hCnn]

/-- Witness for C8 at `t = 3662.5` seconds. -/
theorem C8_format_time_ass_witness :
    ∃ H M S C : Nat,
      M < 60 ∧ S < 60 ∧ C < 100 ∧
      format_time_ass (7325 / 2 : ℚ) =
        Nat.repr H ++ ":" ++ pad2 (M : Int) ++ ":" ++ pad2 (S : Int) ++ "." ++
          pad2 (C : Int) ∧
      (pad2 (M : Int)).length = 2 ∧ (pad2 (S : Int)).length = 2 ∧
      (pad2 (C : Int)).length = 2 ∧
      (∀ c ∈ (pad2 (M : Int)).data, c.isDigit = true) ∧
      (∀ c ∈ (pad2 (S : Int)).data, c.isDigit = true) ∧
      (∀ c ∈ (pad2 (C : Int)).data, c.isDigit = true) ∧
      (H ≠ 0 → (Nat.repr H).data.head? ≠ some '0') ∧
      (C : Int) = pyInt (pyFmod (7325 / 2 : ℚ) 1 * 100) :=
  C8_format_time_ass (7325 / 2 : ℚ) (by norm_num)

theorem string_append_assoc (a b c : String) : a ++ b ++ c = a ++ (b ++ c) := by
  apply String.ext
  simp

/-- The karaoke tag string decomposes into a color override followed by
two zero-width transitions, one at the word's relative start and one at
its relative end. -/
theorem karaokeColorTags_eq (p h : String) (r e : Int) :
    karaokeColorTags p h r e =
      colorTag p ++ transitionTag r r (colorTag h) ++
        transitionTag e e (colorTag p) := by
  have h1 : (",\\c" : String) = "," ++ "\\c" := by decide
  have h2 : (")\\t(" : String) = ")" ++ "\\t(" := by decide
  unfold karaokeColorTags colorTag transitionTag
  rw [h1, h2]
  simp only [string_append_assoc]

/-- The per-word-background tag string decomposes into a color override
followed by two transitions over fixed 50 ms windows, opening at the
word's relative start and at its relative end. -/
theorem perWordColorTags_eq (p h : String) (r e : Int) :
    perWordColorTags p h r e =
      colorTag p ++ transitionTag r (r + 50) (colorTag h) ++
        transitionTag e (e + 50) (colorTag p) := by
  have h1 : (",\\c" : String) = "," ++ "\\c" := by decide
  have h2 : (")\\t(" : String) = ")" ++ "\\t(" := by decide
  unfold perWordColorTags colorTag transitionTag
  rw [h1, h2]
  simp only [string_append_assoc]

/-- C4: with highlighting enabled, the karaoke strategy's per-word
markup uses zero-width (instant) color transitions exactly at the word's
relative start and end; the per-word-background strategy instead uses
50 ms transition windows opening at those boundaries. -/
theorem C4_highlight_transitions (θ : SubtitleThemeConfig) (chunkStart : ℚ)
    (w : WordTiming) (p h : String)
    (hen : θ.highlight.enabled = true)
    (hp : hex_to_ass_color θ.colors.primary = .ok p)
    (hh : hex_to_ass_color θ.colors.highlight = .ok h) :
    karaokeWordPart θ chunkStart w =
      .ok ("\x7b" ++ (colorTag p ++
        transitionTag (pyInt ((w.start - chunkStart) * 1000))
          (pyInt ((w.start - chunkStart) * 1000)) (colorTag h) ++
        transitionTag (pyInt ((w.stop - chunkStart) * 1000))
          (pyInt ((w.stop - chunkStart) * 1000)) (colorTag p)) ++
        "\x7d" ++ w.word) ∧
    perWordWordPart θ chunkStart w =
      .ok ("\x7b" ++ (colorTag p ++
        transitionTag (pyInt ((w.start - chunkStart) * 1000))
          (pyInt ((w.start - chunkStart) * 1000) + 50) (colorTag h) ++
        transitionTag (pyInt ((w.stop - chunkStart) * 1000))
          (pyInt ((w.stop - chunkStart) * 1000) + 50) (colorTag p)) ++
        "\x7d" ++ w.word) := by
  constructor
  · unfold karaokeWordPart
    rw [hen, if_pos rfl, hp, hh]
    show Except.ok ("\x7b" ++ karaokeColorTags p h
        (pyInt ((w.start - chunkStart) * 1000))
        (pyInt ((w.stop - chunkStart) * 1000)) ++ "\x7d" ++ w.word) = _
    rw [karaokeColorTags_eq]
  · unfold perWordWordPart
    rw [hp, hh]
    show Except.ok ("\x7b" ++ perWordColorTags p h
        (pyInt ((w.start - chunkStart) * 1000))
        (pyInt ((w.stop - chunkStart) * 1000)) ++ "\x7d" ++ w.word) = _
    rw [perWordColorTags_eq]

/-- Witness for C4 at the default theme, word `"hi"` spanning `0.5 s` to
`1 s` in a chunk starting at `0`. -/
theorem C4_highlight_transitions_witness :
    karaokeWordPart defaultTheme 0 ⟨"hi", 1/2, 1⟩ =
      .ok ("\x7b" ++ (colorTag "&H00FFFFFF" ++
        transitionTag (pyInt (((1/2 : ℚ) - 0) * 1000))
          (pyInt (((1/2 : ℚ) - 0) * 1000)) (colorTag "&H0088FF00") ++
        transitionTag (pyInt (((1 : ℚ) - 0) * 1000))
          (pyInt (((1 : ℚ) - 0) * 1000)) (colorTag "&H00FFFFFF")) ++
        "\x7d" ++ "hi") ∧
    perWordWordPart defaultTheme 0 ⟨"hi", 1/2, 1⟩ =
      .ok ("\x7b" ++ (colorTag "&H00FFFFFF" ++
        transitionTag (pyInt (((1/2 : ℚ) - 0) * 1000))
          (pyInt (((1/2 : ℚ) - 0) * 1000) + 50) (colorTag "&H0088FF00") ++
        transitionTag (pyInt (((1 : ℚ) - 0) * 1000))
          (pyInt (((1 : ℚ) - 0) * 1000) + 50) (colorTag "&H00FFFFFF")) ++
        "\x7d" ++ "hi") :=
  C4_highlight_transitions defaultTheme 0 ⟨"hi", 1/2, 1⟩
    "&H00FFFFFF" "&H0088FF00" rfl rfl rfl

/-- C10: when a segment's computed word-timing sequence is empty, both
the karaoke and the per-word-background strategies return exactly the
plain strategy's output for that segment. -/
theorem C10_empty_timings_fallback (θ : SubtitleThemeConfig) (segment : Segment)
    (hw : calculate_word_timings segment = []) :
    render_segment_karaoke θ segment =
      .ok (render_segment_simple θ segment) ∧
    render_segment_per_word_background θ segment =
      .ok (render_segment_simple θ segment) := by
  constructor
  · unfold render_segment_karaoke
    rw [hw]
    rfl
  · unfold render_segment_per_word_background
    rw [hw]
    rfl

/-! ### Word-timing estimator lemmas (for C2) -/

theorem wtLoop_words (dur : ℚ) (total n : Nat) :
    ∀ (ws : List String) (t : ℚ),
      (wtLoop dur total n ws t).map (fun x => x.word) = ws := by
  intro ws
  induction ws with
  | nil => intro t; rfl
  | cons w rest ih => intro t; simp [wtLoop, ih]

theorem wtLoop_durations (dur : ℚ) (total n : Nat) :
    ∀ (ws : List String) (t : ℚ),
      (wtLoop dur total n ws t).map (fun x => x.stop - x.start) =
        ws.map (wordDur dur total n) := by
  intro ws
  induction ws with
  | nil => intro t; rfl
  | cons w rest ih => intro t; simp [wtLoop, ih]

theorem wtLoop_chain (dur : ℚ) (total n : Nat) :
    ∀ (ws : List String) (t : ℚ),
      List.Chain' (fun a b => a.stop = b.start) (wtLoop dur total n ws t) := by
  intro ws
  induction ws with
  | nil => intro t; simp [wtLoop]
  | cons w rest ih =>
    intro t
    rw [wtLoop]
    apply List.chain'_cons'.mpr
    refine ⟨?_, ih _⟩
    intro b hb
    match rest, hb with
    | w2 :: rest2, hb =>
      have : b = ⟨w2, t + wordDur dur total n w,
          t + wordDur dur total n w + wordDur dur total n w2⟩ := by
        simpa [wtLoop] using hb.symm
      rw [this]

theorem sum_map_div_mul (total : Nat) (dur : ℚ) (l : List String) :
    (l.map (fun w => ((w.length : ℚ) / (total : ℚ)) * dur)).sum =
      (((l.map String.length).sum : ℚ) / (total : ℚ)) * dur := by
  induction l with
  | nil => simp
  | cons w rest ih =>
    simp only [List.map_cons, List.sum_cons, ih]
    push_cast
    ring

theorem pySplitChars_tokens_nonempty :
    ∀ (cs cur : List Char), ∀ t ∈ pySplitChars cs cur, t.data ≠ [] := by
  intro cs
  induction cs with
  | nil =>
    intro cur t ht
    simp only [pySplitChars] at ht
    split at ht
    · simp at ht
    · next h =>
      rw [List.mem_singleton] at ht
      subst ht
      simpa [List.isEmpty_iff] using h
  | cons c cs ih =>
    intro cur t ht
    simp only [pySplitChars] at ht
    split at ht
    · split at ht
      · exact ih [] t ht
      · next h =>
        rcases List.mem_cons.mp ht with rfl | ht
        · simpa [List.isEmpty_iff] using h
        · exact ih [] t ht
    · exact ih (c :: cur) t ht

theorem pySplit_tokens_nonempty (s : String) :
    ∀ t ∈ pySplit s, t.data ≠ [] :=
  pySplitChars_tokens_nonempty s.data []

/-- C2 fails as stated: on a segment whose `words` field is present but
has every entry trimming to the empty string, the claim's "otherwise"
branch would estimate from the text; the code instead returns the empty
sequence (`"words" in segment` alone selects the direct-map branch). -/
theorem C2_counterexample :
    calculate_word_timings
        ⟨some 0, some 10, some "hi", some [⟨some " ", some 1, some 2⟩]⟩ = [] ∧
    claimWordTimings
        ⟨some 0, some 10, some "hi", some [⟨some " ", some 1, some 2⟩]⟩ =
      [⟨"hi", 0, 10⟩] ∧
    calculate_word_timings
        ⟨some 0, some 10, some "hi", some [⟨some " ", some 1, some 2⟩]⟩ ≠
      claimWordTimings
        ⟨some 0, some 10, some "hi", some [⟨some " ", some 1, some 2⟩]⟩ := by
  have hdir : calculate_word_timings
      ⟨some 0, some 10, some "hi", some [⟨some " ", some 1, some 2⟩]⟩ = [] := by
    decide
  have hclaim : claimWordTimings
      ⟨some 0, some 10, some "hi", some [⟨some " ", some 1, some 2⟩]⟩ =
      [⟨"hi", 0, 10⟩] := by
    have h1 : pySplit (pyStrip "hi") = ["hi"] := by decide
    dsimp only [claimWordTimings]
    rw [hdir, if_pos rfl]
    dsimp only [calculate_word_timings, Option.getD]
    rw [h1]
    norm_num [wtLoop, wordDur, String.length]
  refine ⟨hdir, hclaim, ?_⟩
  rw [hdir, hclaim]
  intro h
  simp at h

/-- C2 (amended): the direct-map branch is selected whenever the `words`
field is present (even when every entry trims away, in which case the
result is empty); entries map through with empty-trimmed words dropped
and timestamps unchanged.  Only when `words` is absent is the trimmed
text split on whitespace: no words gives the empty sequence, and
otherwise the estimator walks the words with an accumulator starting at
`segment.start`, assigning each word the duration
`(len(word)/totalChars) * (segment.end - segment.start)` when
`totalChars > 0` (else an equal split), consecutive words chaining
end-to-start, and the durations summing exactly to the segment duration;
on `{start:0, end:10, text:"ab abcd"}` the words span `0 → 10·2/6` and
`10·2/6 → 10`. -/
theorem C2_word_timings (segment : Segment) :
    (∀ ws, segment.words? = some ws →
      calculate_word_timings segment =
        ws.filterMap (fun w =>
          if pyStrip (w.word?.getD "") = "" then none
          else some ⟨pyStrip (w.word?.getD ""), w.start?.getD 0,
            w.stop?.getD 0⟩)) ∧
    (segment.words? = none →
      pySplit (pyStrip (segment.text?.getD "")) = [] →
      calculate_word_timings segment = []) ∧
    (∀ words, segment.words? = none →
      pySplit (pyStrip (segment.text?.getD "")) = words → words ≠ [] →
      (calculate_word_timings segment).map (fun x => x.word) = words ∧
      (calculate_word_timings segment).head?.map (fun x => x.start) =
        some (segment.start?.getD 0) ∧
      List.Chain' (fun a b => a.stop = b.start)
        (calculate_word_timings segment) ∧
      (calculate_word_timings segment).map (fun x => x.stop - x.start) =
        words.map (wordDur (segment.stop?.getD 0 - segment.start?.getD 0)
          ((words.map String.length).sum) words.length) ∧
      0 < (words.map String.length).sum ∧
      ((calculate_word_timings segment).map (fun x => x.stop - x.start)).sum =
        segment.stop?.getD 0 - segment.start?.getD 0) ∧
    calculate_word_timings ⟨some 0, some 10, some "ab abcd", none⟩ =
      [⟨"ab", 0, 10 / 3⟩, ⟨"abcd", 10 / 3, 10⟩] := by
  have hex : calculate_word_timings ⟨some 0, some 10, some "ab abcd", none⟩ =
      [⟨"ab", 0, 10 / 3⟩, ⟨"abcd", 10 / 3, 10⟩] := by
    have h1 : pySplit (pyStrip "ab abcd") = ["ab", "abcd"] := by decide
    dsimp only [calculate_word_timings, Option.getD]
    rw [h1]
    norm_num [wtLoop, wordDur, String.length]
  refine ⟨?_, ?_, ?_, hex⟩
  · intro ws hws
    unfold calculate_word_timings
    rw [hws]
  · intro hnone hsplit
    simp only [calculate_word_timings, hnone, hsplit]
  · intro words hnone hsplit hne
    have htok : ∀ t ∈ words, t.data ≠ [] := by
      intro t ht
      exact pySplit_tokens_nonempty _ t (hsplit ▸ ht)
    have hpos : 0 < (words.map String.length).sum := by
      match words, hne with
      | w :: rest, _ =>
        have hw : w.data ≠ [] := htok w (by simp)
        have : 0 < w.length := by
          have : w.data.length ≠ 0 := fun h => hw (List.eq_nil_of_length_eq_zero h)
          show 0 < w.data.length
          omega
        simp only [List.map_cons, List.sum_cons]
        have : 0 ≤ (rest.map String.length).sum := Nat.zero_le _
        omega
    match words, hne with
    | w :: rest, _ =>
      have hcalc : calculate_word_timings segment =
          wtLoop (segment.stop?.getD 0 - segment.start?.getD 0)
            (((w :: rest).map String.length).sum) (w :: rest).length
            (w :: rest) (segment.start?.getD 0) := by
        simp only [calculate_word_timings, hnone, hsplit]
      refine ⟨?_, ?_, ?_, ?_, hpos, ?_⟩
      · rw [hcalc, wtLoop_words]
      · rw [hcalc, wtLoop]
        rfl
      · rw [hcalc]
        exact wtLoop_chain _ _ _ _ _
      · rw [hcalc, wtLoop_durations]
      · rw [hcalc, wtLoop_durations]
        have hform : ∀ x ∈ (w :: rest),
            wordDur (segment.stop?.getD 0 - segment.start?.getD 0)
              (((w :: rest).map String.length).sum) (w :: rest).length x =
            ((x.length : ℚ) / ((((w :: rest).map String.length).sum : Nat) : ℚ)) *
              (segment.stop?.getD 0 - segment.start?.getD 0) := by
          intro x _
          exact if_pos hpos
        have hS : (((((w :: rest).map String.length).sum : Nat)) : ℚ) ≠ 0 :=
          Nat.cast_ne_zero.mpr hpos.ne'
        rw [List.map_congr_left hform, sum_map_div_mul, div_self hS, one_mul]

/-- Witness for C2 on the claim's own example segment
`{start:0, end:10, text:"ab abcd"}`. -/
theorem C2_word_timings_witness :
    (calculate_word_timings ⟨some 0, some 10, some "ab abcd", none⟩).map
        (fun x => x.word) = ["ab", "abcd"] ∧
    (calculate_word_timings ⟨some 0, some 10, some "ab abcd", none⟩).head?.map
        (fun x => x.start) = some ((0 : ℚ)) ∧
    List.Chain' (fun a b => a.stop = b.start)
      (calculate_word_timings ⟨some 0, some 10, some "ab abcd", none⟩) ∧
    (calculate_word_timings ⟨some 0, some 10, some "ab abcd", none⟩).map
        (fun x => x.stop - x.start) =
      (["ab", "abcd"] : List String).map (wordDur ((10 : ℚ) - 0) 6 2) ∧
    0 < ((["ab", "abcd"] : List String).map String.length).sum ∧
    ((calculate_word_timings ⟨some 0, some 10, some "ab abcd", none⟩).map
        (fun x => x.stop - x.start)).sum = (10 : ℚ) - 0 :=
  (C2_word_timings ⟨some 0, some 10, some "ab abcd", none⟩).2.2.1
    ["ab", "abcd"] rfl (by decide) (by decide)

/-- Witness for C10: a segment whose `words` entries all trim to the
empty string (so the computed timing sequence is empty). -/
theorem C10_empty_timings_fallback_witness :
    render_segment_karaoke defaultTheme
        ⟨some 0, some 1, some "x", some [⟨some " ", some 1, some 2⟩]⟩ =
      .ok (render_segment_simple defaultTheme
        ⟨some 0, some 1, some "x", some [⟨some " ", some 1, some 2⟩]⟩) ∧
    render_segment_per_word_background defaultTheme
        ⟨some 0, some 1, some "x", some [⟨some " ", some 1, some 2⟩]⟩ =
      .ok (render_segment_simple defaultTheme
        ⟨some 0, some 1, some "x", some [⟨some " ", some 1, some 2⟩]⟩) :=
  C10_empty_timings_fallback defaultTheme _ (by decide)

/-! ### Line-splitting and prefix lemmas (for C6) -/

theorem splitNlChars_cons (c : Char) (cs : List Char) :
    splitNlChars (c :: cs) =
      if c = '\n' then [] :: splitNlChars cs
      else (c :: (splitNlChars cs).headD []) :: (splitNlChars cs).tail := rfl

theorem splitNlChars_append (a : List Char) :
    '\n' ∉ a → ∀ b, splitNlChars (a ++ '\n' :: b) = a :: splitNlChars b := by
  induction a with
  | nil => intro _ b; simp [splitNlChars_cons]
  | cons c a ih =>
    intro ha b
    have hc : c ≠ '\n' := fun h => ha (by simp [h])
    have ha' : '\n' ∉ a := fun h => ha (by simp [h])
    rw [List.cons_append, splitNlChars_cons, if_neg hc, ih ha' b,
      List.headD_cons, List.tail_cons]

theorem splitNlChars_single (a : List Char) :
    '\n' ∉ a → splitNlChars a = [a] := by
  induction a with
  | nil => intro _; rfl
  | cons c a ih =>
    intro ha
    have hc : c ≠ '\n' := fun h => ha (by simp [h])
    have ha' : '\n' ∉ a := fun h => ha (by simp [h])
    rw [splitNlChars_cons, if_neg hc, ih ha', List.headD_cons,
      List.tail_cons]

theorem joinLines_split :
    ∀ (ls : List String) (l : String), (∀ x ∈ l :: ls, noNewline x) →
      splitNlChars (joinLines (l :: ls)).data = (l :: ls).map String.data := by
  intro ls
  induction ls with
  | nil =>
    intro l h
    exact splitNlChars_single l.data (h l (by simp))
  | cons l2 ls ih =>
    intro l h
    have hl : noNewline l := h l (by simp)
    have hnl : ("\n" : String).data = ['\n'] := rfl
    have hdata : (joinLines (l :: l2 :: ls)).data =
        l.data ++ '\n' :: (joinLines (l2 :: ls)).data := by
      show (l ++ "\n" ++ joinLines (l2 :: ls)).data = _
      rw [String.data_append, String.data_append, hnl]
      simp
    rw [hdata, splitNlChars_append l.data hl,
      ih l2 (fun x hx => h x (by simp at hx ⊢; tauto))]
    rfl

theorem isPrefixOf_append_of_length_le :
    ∀ (p a b : List Char), p.length ≤ a.length →
      (p.isPrefixOf (a ++ b)) = p.isPrefixOf a := by
  intro p
  induction p with
  | nil => intro a b _; simp
  | cons c p ih =>
    intro a b h
    match a with
    | [] => simp at h
    | d :: a' =>
      rw [List.cons_append, List.isPrefixOf_cons₂, List.isPrefixOf_cons₂,
        ih a' b (by simpa using h)]

theorem isPrefixOf_append_right (p : List Char) :
    ∀ (x y : List Char), p.isPrefixOf x = true →
      p.isPrefixOf (x ++ y) = true := by
  induction p with
  | nil => intro x y _; simp
  | cons c p ih =>
    intro x y h
    match x with
    | [] => simp at h
    | d :: x' =>
      rw [List.isPrefixOf_cons₂, Bool.and_eq_true] at h
      rw [List.cons_append, List.isPrefixOf_cons₂, Bool.and_eq_true]
      exact ⟨h.1, ih x' y h.2⟩

theorem noNewline_append (a b : String) (ha : noNewline a)
    (hb : noNewline b) : noNewline (a ++ b) := by
  intro hmem
  rw [String.data_append] at hmem
  rcases List.mem_append.mp hmem with h | h
  · exact ha h
  · exact hb h

/-! ### Success and shape of valid color conversions (for C6) -/

theorem hexDigitVal_le (c : Char) (v : Nat) (h : hexDigitVal c = some v) :
    v ≤ 15 := by
  have e0 : '0'.toNat = 48 := rfl
  have e9 : '9'.toNat = 57 := rfl
  have ea : 'a'.toNat = 97 := rfl
  have ef : 'f'.toNat = 102 := rfl
  have eA : 'A'.toNat = 65 := rfl
  have eF : 'F'.toNat = 70 := rfl
  unfold hexDigitVal at h
  rw [e0, e9, ea, ef, eA, eF] at h
  split_ifs at h with h1 h2 h3 <;> simp only [Option.some.injEq] at h <;> omega

theorem toHex2_noNewline (n : Nat) (hn : n ≤ 255) : noNewline (toHex2 n) := by
  intro hmem
  have h1 : n / 16 < 16 := Nat.div_lt_of_lt_mul (by omega)
  have h2 : n % 16 < 16 := Nat.mod_lt _ (by omega)
  have hc : '\n' = hexUpperDigit (n / 16) ∨ '\n' = hexUpperDigit (n % 16) := by
    simpa [toHex2] using hmem
  have hnot : '\n' ∉ "0123456789ABCDEF".data := by decide
  rcases hc with h | h
  · exact hnot (h ▸ hexUpperDigit_mem _ h1)
  · exact hnot (h ▸ hexUpperDigit_mem _ h2)

theorem assColorToken_noNewline (a b g r : Nat) (ha : a ≤ 255) (hb : b ≤ 255)
    (hg : g ≤ 255) (hr : r ≤ 255) : noNewline (assColorToken a b g r) := by
  unfold assColorToken
  repeat' apply noNewline_append
  all_goals first | decide | exact toHex2_noNewline _ ha |
    exact toHex2_noNewline _ hb | exact toHex2_noNewline _ hg |
    exact toHex2_noNewline _ hr

theorem list_len6 {α : Type _} (l : List α) (h : l.length = 6) :
    ∃ a b c d e f, l = [a, b, c, d, e, f] := by
  rcases l with _ | ⟨a, _ | ⟨b, _ | ⟨c, _ | ⟨d, _ | ⟨e, _ | ⟨f, _ | ⟨g, t⟩⟩⟩⟩⟩⟩⟩ <;>
    simp at h
  exact ⟨a, b, c, d, e, f, rfl⟩

theorem list_len8 {α : Type _} (l : List α) (h : l.length = 8) :
    ∃ a b c d e f g i, l = [a, b, c, d, e, f, g, i] := by
  rcases l with _ | ⟨a, _ | ⟨b, _ | ⟨c, _ | ⟨d, _ | ⟨e, _ | ⟨f, _ | ⟨g, _ |
    ⟨i, _ | ⟨j, t⟩⟩⟩⟩⟩⟩⟩⟩⟩ <;> simp at h
  exact ⟨a, b, c, d, e, f, g, i, rfl⟩

theorem parseHexByte_of_hex (c1 c2 : Char) (h1 : isHexDigitChar c1 = true)
    (h2 : isHexDigitChar c2 = true) :
    ∃ v, parseHexByte c1 c2 = some v ∧ v ≤ 255 := by
  unfold isHexDigitChar at h1 h2
  obtain ⟨v1, hv1⟩ := Option.isSome_iff_exists.mp h1
  obtain ⟨v2, hv2⟩ := Option.isSome_iff_exists.mp h2
  refine ⟨16 * v1 + v2, ?_, ?_⟩
  · unfold parseHexByte
    rw [hv1, hv2]
  · have := hexDigitVal_le c1 _ hv1
    have := hexDigitVal_le c2 _ hv2
    omega

theorem hexColorCore_ok_of_valid (l : List Char)
    (hlen : l.length = 6 ∨ l.length = 8)
    (hhex : ∀ c ∈ l, isHexDigitChar c = true) :
    ∃ t, hexColorCore l = .ok t ∧ noNewline t := by
  rcases hlen with h6 | h8
  · obtain ⟨c1, c2, c3, c4, c5, c6, rfl⟩ := list_len6 l h6
    obtain ⟨r, hr, hrle⟩ := parseHexByte_of_hex c1 c2 (hhex c1 (by simp))
      (hhex c2 (by simp))
    obtain ⟨g, hg, hgle⟩ := parseHexByte_of_hex c3 c4 (hhex c3 (by simp))
      (hhex c4 (by simp))
    obtain ⟨b, hb, hble⟩ := parseHexByte_of_hex c5 c6 (hhex c5 (by simp))
      (hhex c6 (by simp))
    refine ⟨assColorToken 0 b g r, ?_, ?_⟩
    · simp [hexColorCore, hr, hg, hb]
    · exact assColorToken_noNewline 0 b g r (by omega) hble hgle hrle
  · obtain ⟨c1, c2, c3, c4, c5, c6, c7, c8, rfl⟩ := list_len8 l h8
    obtain ⟨r, hr, hrle⟩ := parseHexByte_of_hex c1 c2 (hhex c1 (by simp))
      (hhex c2 (by simp))
    obtain ⟨g, hg, hgle⟩ := parseHexByte_of_hex c3 c4 (hhex c3 (by simp))
      (hhex c4 (by simp))
    obtain ⟨b, hb, hble⟩ := parseHexByte_of_hex c5 c6 (hhex c5 (by simp))
      (hhex c6 (by simp))
    obtain ⟨a0, ha0, ha0le⟩ := parseHexByte_of_hex c7 c8 (hhex c7 (by simp))
      (hhex c8 (by simp))
    refine ⟨assColorToken (255 - a0) b g r, ?_, ?_⟩
    · simp [hexColorCore, hr, hg, hb, ha0]
    · exact assColorToken_noNewline (255 - a0) b g r (by omega) hble hgle hrle

theorem valid_hex_ok (s : String) (h : IsValidHexColor s) :
    ∃ t, hex_to_ass_color s = .ok t ∧ noNewline t :=
  hexColorCore_ok_of_valid _ h.1 h.2

theorem assStyleLine_noNewline (styleName : String) (θ : SubtitleThemeConfig)
    (pc sc oc bc : String) (B : Nat) (OW SD : Int) (A : Nat) (MV : Int)
    (hsn : noNewline styleName) (hfam : noNewline θ.font.family)
    (hpc : noNewline pc) (hsc : noNewline sc) (hoc : noNewline oc)
    (hbc : noNewline bc) :
    noNewline (assStyleLine styleName θ pc sc oc bc B OW SD A MV) := by
  dsimp only [assStyleLine]
  repeat' apply noNewline_append
  all_goals first
    | assumption
    | decide
    | exact int_toString_no_newline _
    | exact nat_toString_no_newline _

theorem prefix_extend {u v : List Char} (w : List Char) (h : u <+: v) :
    u <+: v ++ w :=
  h.trans (List.prefix_append _ _)

/-- A `Style:` record line extends any prefix of its fixed
`Style: <name>,` head. -/
theorem assStyleLine_prefix (p : List Char) (styleName : String)
    (θ : SubtitleThemeConfig) (pc sc oc bc : String) (B : Nat) (OW SD : Int)
    (A : Nat) (MV : Int)
    (hp : p <+: ("Style: " ++ styleName ++ ",").data) :
    p.isPrefixOf (assStyleLine styleName θ pc sc oc bc B OW SD A MV).data =
      true := by
  rw [List.isPrefixOf_iff_prefix]
  rw [String.data_append, String.data_append] at hp
  dsimp only [assStyleLine]
  simp only [String.data_append]
  iterate 30 apply prefix_extend
  exact hp

/-- C6 fails as stated: a theme whose five color fields are valid hex
strings but whose name embeds a newline followed by `Style: ` makes the
generated header contain three `Style: ` lines. -/
theorem C6_counterexample :
    IsValidHexColor evilTheme.colors.primary ∧
    IsValidHexColor evilTheme.colors.highlight ∧
    IsValidHexColor evilTheme.colors.background ∧
    IsValidHexColor evilTheme.colors.outline ∧
    IsValidHexColor evilTheme.colors.shadow ∧
    (generate_ass_header evilTheme 1080 1920).toOption.map
      (fun s => (styleLinesOf s).length) = some 3 := by
  decide

set_option maxRecDepth 8000 in
/-- C6 (amended): for every theme whose five color fields are valid 6-
or 8-digit hex strings **and whose name and font-family fields contain
no newline character**, the generated header has exactly two lines
beginning with `Style: `, the first naming `Default` and the second
`Highlight`, in that order. -/
theorem C6_header_styles (θ : SubtitleThemeConfig) (w h : Int) (hdr : String)
    (hv1 : IsValidHexColor θ.colors.primary)
    (hv2 : IsValidHexColor θ.colors.highlight)
    (hv3 : IsValidHexColor θ.colors.background)
    (hv4 : IsValidHexColor θ.colors.outline)
    (hv5 : IsValidHexColor θ.colors.shadow)
    (hname : noNewline θ.name) (hfam : noNewline θ.font.family)
    (hok : generate_ass_header θ w h = .ok hdr) :
    ∃ ld lh, styleLinesOf hdr = [ld, lh] ∧
      "Style: Default,".data.isPrefixOf ld = true ∧
      "Style: Highlight,".data.isPrefixOf lh = true := by
  obtain ⟨pc, hpc, hpcn⟩ := valid_hex_ok _ hv1
  obtain ⟨sc, hsc, hscn⟩ := valid_hex_ok _ hv2
  obtain ⟨oc, hoc, hocn⟩ := valid_hex_ok _ hv4
  obtain ⟨bc, hbc, hbcn⟩ := valid_hex_ok _ hv3
  unfold generate_ass_header at hok
  rw [hpc, hsc, hoc, hbc] at hok
  have h2 : Except.ok (ε := HexColorError)
      (joinLines (assHeaderLines θ w h pc sc oc bc)) = .ok hdr := hok
  have hdr_eq : hdr = joinLines (assHeaderLines θ w h pc sc oc bc) :=
    (Except.ok.inj h2).symm
  subst hdr_eq
  have hnn : ∀ x ∈ assHeaderLines θ w h pc sc oc bc, noNewline x := by
    dsimp only [assHeaderLines]
    intro x hx
    simp only [List.mem_cons, List.not_mem_nil, or_false] at hx
    rcases hx with rfl | rfl | rfl | rfl | rfl | rfl | rfl | rfl | rfl | rfl |
      rfl | rfl | rfl | rfl | rfl | rfl | rfl
    · decide
    · exact noNewline_append _ _ (by decide) hname
    · decide
    · decide
    · decide
    · decide
    · exact noNewline_append _ _ (by decide) (int_toString_no_newline _)
    · exact noNewline_append _ _ (by decide) (int_toString_no_newline _)
    · decide
    · decide
    · decide
    · exact assStyleLine_noNewline _ _ _ _ _ _ _ _ _ _ _ (by decide) hfam
        hpcn hscn hocn hbcn
    · exact assStyleLine_noNewline _ _ _ _ _ _ _ _ _ _ _ (by decide) hfam
        hscn hscn hocn hbcn
    · decide
    · decide
    · decide
    · decide
  obtain ⟨l1, ls, hL⟩ :
      ∃ l1 ls, assHeaderLines θ w h pc sc oc bc = l1 :: ls := ⟨_, _, rfl⟩
  have hsplit : splitNlChars
      (joinLines (assHeaderLines θ w h pc sc oc bc)).data =
      (assHeaderLines θ w h pc sc oc bc).map String.data := by
    rw [hL]
    exact joinLines_split ls l1 (hL ▸ hnn)
  unfold styleLinesOf linesOf
  rw [hsplit]
  have hT : ("Style: ".data.isPrefixOf ("Title: " ++ θ.name).data) = false := by
    rw [String.data_append,
      isPrefixOf_append_of_length_le _ _ _ (by decide)]
    decide
  have hPX : ("Style: ".data.isPrefixOf
      ("PlayResX: " ++ toString w).data) = false := by
    rw [String.data_append,
      isPrefixOf_append_of_length_le _ _ _ (by decide)]
    decide
  have hPY : ("Style: ".data.isPrefixOf
      ("PlayResY: " ++ toString h).data) = false := by
    rw [String.data_append,
      isPrefixOf_append_of_length_le _ _ _ (by decide)]
    decide
  have hSD : ∀ (B : Nat) (OW SD : Int) (A : Nat) (MV : Int),
      ("Style: ".data.isPrefixOf
        (assStyleLine "Default" θ pc sc oc bc B OW SD A MV).data) = true :=
    fun B OW SD A MV =>
      assStyleLine_prefix _ _ _ _ _ _ _ _ _ _ _ _ (by decide)
  have hSH : ∀ (B : Nat) (OW SD : Int) (A : Nat) (MV : Int),
      ("Style: ".data.isPrefixOf
        (assStyleLine "Highlight" θ sc sc oc bc B OW SD A MV).data) = true :=
    fun B OW SD A MV =>
      assStyleLine_prefix _ _ _ _ _ _ _ _ _ _ _ _ (by decide)
  dsimp only [assHeaderLines, List.map_cons, List.map_nil]
  simp only [List.filter_cons, List.filter_nil, hT, hPX, hPY, hSD, hSH]
  norm_num
  refine ⟨_, _, rfl, ?_, ?_⟩
  · rw [← List.isPrefixOf_iff_prefix]
    apply assStyleLine_prefix
    decide
  · rw [← List.isPrefixOf_iff_prefix]
    apply assStyleLine_prefix
    decide

/-- Witness for C6 at the default theme on a 1080×1920 canvas. -/
theorem C6_header_styles_witness :
    ∃ ld lh,
      styleLinesOf (joinLines (assHeaderLines defaultTheme 1080 1920
        "&H00FFFFFF" "&H0088FF00" "&H00000000" "&H33000000")) = [ld, lh] ∧
      "Style: Default,".data.isPrefixOf ld = true ∧
      "Style: Highlight,".data.isPrefixOf lh = true :=
  C6_header_styles defaultTheme 1080 1920 _ (by decide) (by decide)
    (by decide) (by decide) (by decide) (by decide) (by decide) rfl
